import Mathlib

/-!
Verification of the trendhunter fetch-orchestration core against its
natural-language specification.  The Lean definitions below are a shallow
embedding of `src/trendhunter/api.py` and `src/trendhunter/utils.py`:
pure functions are translated directly, the stateful discovery/hydration
loops become fuel-indexed functional loops (`none` = the Python loop has
not terminated within the given fuel), and the network / HTML-extraction
collaborators (aiohttp, requests, BeautifulSoup) are passed in as oracle
functions, following the spec's section 6 which treats them as external
collaborators.
-/

namespace TrendHunter

/-! ## Data model (`src/trendhunter/tuples.py`) -/

/-- The `Metadata` named tuple: article entity id and category id. -/
structure Metadata where
  eid : String
  cid : String
deriving DecidableEq, Repr

/-- The `Text` named tuple: optional title, description and metadata.
In Python each field may be `None`; a present string may still be empty
(falsy), which matters for the hydration filter. -/
structure Text where
  title : Option String
  description : Option String
  metadata : Option Metadata
deriving DecidableEq, Repr

/-- The `Image` named tuple: optional url and optional image bytes
(bytes modelled as `String`). -/
structure Image where
  url : Option String
  image : Option String
deriving DecidableEq, Repr

/-- The `Resource` named tuple: fetched url and raw content. -/
structure Resource where
  url : String
  content : String
deriving DecidableEq, Repr

/-- The `Article` named tuple: url, text and image. -/
structure Article where
  url : String
  text : Text
  image : Image
deriving DecidableEq, Repr

/-- The `URLPair` named tuple: discovered article url and thumbnail url. -/
structure URLPair where
  url : String
  image_url : String
deriving DecidableEq, Repr

/-! ## Taxonomies

`src/trendhunter/taxonomies.py` is imported by every module of the
repository but is not present under `src/`.  Modelled from the spec:
the spec's section 4.1 and the tests (`tests/test_api.py`) show the four
page types and the fixed `act`/`aj` request parameters; their concrete
string values do not matter for any claim, so they are plain inductive
tags here. -/

/-- Modelled from the spec: `PageType` enumeration from the missing
`taxonomies.py`.  The tests exercise `TREND`, `LIST`, `CATAGORY` (sic)
and `SEARCH`. -/
inductive PageType where
  | TREND
  | LIST
  | CATAGORY
  | SEARCH
deriving DecidableEq, Repr

/-- Modelled from the spec: `APIAction` tag from the missing
`taxonomies.py`; only `LP` is used by the iterators. -/
inductive APIAction where
  | LP
deriving DecidableEq, Repr

/-- Modelled from the spec: `AJAXIncrement` tag from the missing
`taxonomies.py`; only `ONE` is used by the iterators. -/
inductive AJAXIncrement where
  | ONE
deriving DecidableEq, Repr

/-! ## Pagination cursors (`api.py`, `URLIterator` hierarchy)

The Python base class holds two fields: `self._increment` (set to `0` in
`__init__` and never written again) and `self.increment`.  `__iter__`
copies `_increment` into `increment` and returns the instance.  Each
subclass `__next__` first increments `increment`, then builds the request
parameter dictionary.  The parameter dictionaries are modelled as
structures with one field per key. -/

/-- Request parameters built by `ArticleURLIterator.__next__`:
`act`, `p`, `aj`, and exactly one of `eid` (first page) or `cid`
(subsequent pages). -/
structure ArticleParams where
  act : APIAction
  p : Nat
  aj : AJAXIncrement
  eid : Option String
  cid : Option String
deriving DecidableEq, Repr

/-- Request parameters built by `PageTypeURLIterator.__next__`:
`act`, `p`, `aj`, `pt`, `v`, `t`, and `s = "best"` iff `is_best`. -/
structure PageTypeParams where
  act : APIAction
  p : Nat
  aj : AJAXIncrement
  pt : PageType
  v : String
  t : PageType
  s : Option String
deriving DecidableEq, Repr

/-- State of `ArticleURLIterator`: the entity and category ids plus the
two increment fields of the `URLIterator` base class (`initIncrement`
stands for the Python `_increment`). -/
structure ArticleURLIterator where
  eid : String
  cid : String
  initIncrement : Nat
  increment : Nat
deriving DecidableEq, Repr

/-- Constructor `ArticleURLIterator(eid, cid)`: the base `__init__` sets both
`_increment` and `increment` to `0`. -/
def ArticleURLIterator.init (eid cid : String) : ArticleURLIterator :=
  ⟨eid, cid, 0, 0⟩

/-- Method `URLIterator.__iter__` for the article variant: copy `_increment`
into `increment`. -/
def ArticleURLIterator.iterFn (it : ArticleURLIterator) : ArticleURLIterator :=
  { it with increment := it.initIncrement }

/-- Method `ArticleURLIterator.__next__`: bump `increment`, then build the
parameters; page 1 carries `eid`, later pages carry `cid`. -/
def ArticleURLIterator.nextFn (it : ArticleURLIterator) :
    ArticleParams × ArticleURLIterator :=
  let inc := it.increment + 1
  (⟨APIAction.LP, inc, AJAXIncrement.ONE,
    if inc = 1 then some it.eid else none,
    if inc = 1 then none else some it.cid⟩,
   { it with increment := inc })

/-- State of `PageTypeURLIterator`: subject id, page type, best-sort flag
and the two increment fields of the base class. -/
structure PageTypeURLIterator where
  uid : String
  page_type : PageType
  is_best : Bool
  initIncrement : Nat
  increment : Nat
deriving DecidableEq, Repr

/-- Constructor `PageTypeURLIterator(uid, page_type, is_best)`. -/
def PageTypeURLIterator.init (uid : String) (pt : PageType) (isBest : Bool) :
    PageTypeURLIterator :=
  ⟨uid, pt, isBest, 0, 0⟩

/-- Method `URLIterator.__iter__` for the listing-type variant. -/
def PageTypeURLIterator.iterFn (it : PageTypeURLIterator) : PageTypeURLIterator :=
  { it with increment := it.initIncrement }

/-- Method `PageTypeURLIterator.__next__`: bump `increment`, then build the
parameters; `s = "best"` is present iff `is_best`. -/
def PageTypeURLIterator.nextFn (it : PageTypeURLIterator) :
    PageTypeParams × PageTypeURLIterator :=
  let inc := it.increment + 1
  (⟨APIAction.LP, inc, AJAXIncrement.ONE, it.page_type, it.uid, PageType.TREND,
    if it.is_best then some "best" else none⟩,
   { it with increment := inc })

/-- The iterator state after `k` calls to `__next__` on the article
variant. -/
def ArticleURLIterator.stateAfter (it : ArticleURLIterator) : Nat → ArticleURLIterator
  | 0 => it
  | k + 1 => ((it.stateAfter k).nextFn).2

/-- The parameters produced by the `(k+1)`-th call to `__next__`
(`descAt it 0` is the first produced descriptor). -/
def ArticleURLIterator.descAt (it : ArticleURLIterator) (k : Nat) : ArticleParams :=
  ((it.stateAfter k).nextFn).1

/-! ## The bounded fetch primitive (`api.py`, `_async_get_url`)

The primary transport (aiohttp, with raise-on-error semantics per spec
section 6) and the fallback transport (`requests.get`) are external
collaborators; their behaviour at the given url is passed in as data.
The primary attempt either raises (`ClientError` / `TimeoutError`) or
delivers a body; a delivered body containing the remote API's
empty-success sentinel raises `ResourceError` inside the `try` block.
Any of those three exceptions enters the `except` clause, which performs
exactly one `requests.get` fallback.  The fallback either raises (the
bare `except: pass`) or delivers a status code and body; only status 200
is accepted.  Otherwise `propagate` decides between re-raising the
original exception and logging plus returning `None`. -/

/-- The exceptions caught by `_async_get_url`'s `except` clause. -/
inductive FetchErr where
  | clientError
  | timeoutError
  | resourceError (url : String)
deriving DecidableEq, Repr

/-- Behaviour of the primary (aiohttp) request at the url: it either
delivers a response body or raises a transport error.  Per spec section 6
the primary transport has raise-on-non-2xx semantics, so a non-2xx
response appears here as `failure`. -/
inductive PrimaryOutcome where
  | success (content : String)
  | failure (e : FetchErr)
deriving DecidableEq, Repr

/-- Behaviour of the fallback (`requests.get`) request at the url: it
either raises (swallowed by the bare `except`) or delivers a status code
and a body. -/
inductive FallbackOutcome where
  | raised
  | response (status : Nat) (body : String)
deriving DecidableEq, Repr

/-- The remote API's empty-success sentinel
`b'\x7b"success":true,"data":""\x7d'` checked by `_async_get_url`. -/
def sentinelStr : String := "\x7b\"success\":true,\"data\":\"\"\x7d"

/-- The check `content.find(sentinel) != -1`: substring containment. -/
def containsSentinel (content : String) : Bool :=
  decide (sentinelStr.toList <:+: content.toList)

/-- The exception live at the start of the `except` clause, if any:
the primary transport error, or `ResourceError` when a 2xx body matches
the sentinel. -/
def primaryErr (url : String) : PrimaryOutcome → Option FetchErr
  | .failure e => some e
  | .success content =>
      if containsSentinel content then some (.resourceError url) else none

/-- Result of one `_async_get_url` call: either an uncaught exception or
an optional `Resource` (`none` is Python's implicit `None` return on the
Degrade path), paired with the number of fallback requests issued. -/
def asyncGetUrl (url : String) (primary : PrimaryOutcome)
    (fallback : FallbackOutcome) (propagate : Bool) :
    Except FetchErr (Option Resource) × Nat :=
  match primaryErr url primary with
  | none =>
      match primary with
      | .success content => (.ok (some ⟨url, content⟩), 0)
      | .failure _ => (.ok none, 0)
  | some e =>
      match fallback with
      | .response 200 body => (.ok (some ⟨url, body⟩), 1)
      | _ => if propagate then (.error e, 1) else (.ok none, 1)

/-! ## Token bucket rate limiter (`utils.py`, `TokenBucket`)

Token counts are fractional (`ℚ`); wall-clock readings are nanosecond
integers supplied by a clock oracle `ts : Nat → Nat` (the value of
`time.time_ns()` at the `i`-th clock read), so the proofs quantify over
every possible timing.  The `await asyncio.sleep` in `throttle` only
suspends; the token arithmetic depends solely on the clock readings at
each `resize_bucket` call, so the computed snooze duration does not
appear in the state. -/

/-- State of `TokenBucket`: capacity, refill rate, current fractional
token count, and the timestamp of the last resize (absent before the
first `resize_bucket` call). -/
structure TokenBucket where
  max_bucket_size : Int
  rate : Rat
  current_bucket_size : Rat
  bucket_resized_at : Option Nat
deriving DecidableEq, Repr

/-- Method `TokenBucket.__init__`: rejects non-positive capacity or rate with
`TokenBucketError`, otherwise starts with a full bucket and no resize
timestamp. -/
def TokenBucket.init (max_bucket_size : Int) (rate : Rat) :
    Except String TokenBucket :=
  if max_bucket_size ≤ 0 then
    .error "Max bucket size must be a positive integer."
  else if rate ≤ 0 then
    .error "Rate must be a positive number."
  else
    .ok ⟨max_bucket_size, rate, (max_bucket_size : Rat), none⟩

/-- Method `TokenBucket.resize_bucket` at clock reading `current_time`:
refill proportionally to the elapsed nanoseconds, capped at capacity;
the first call only records the timestamp. -/
def TokenBucket.resize_bucket (b : TokenBucket) (current_time : Nat) :
    TokenBucket :=
  match b.bucket_resized_at with
  | some t =>
      let time_span : Rat := (current_time : Rat) - (t : Rat)
      let new_tokens : Rat := time_span * b.rate / (10 ^ 9 : Rat)
      let combined_size := b.current_bucket_size + new_tokens
      { b with
        current_bucket_size := min combined_size (b.max_bucket_size : Rat),
        bucket_resized_at := some current_time }
  | none => { b with bucket_resized_at := some current_time }

/-- Method `TokenBucket.throttle`: while fewer than one token is available,
sleep and resize at the next clock reading.  `fuel` bounds the number of
loop iterations; `none` means the loop has not exited within `fuel`
iterations.  Returns the bucket and the next unused clock index. -/
def TokenBucket.throttleF (fuel : Nat) (b : TokenBucket) (ts : Nat → Nat)
    (i : Nat) : Option (TokenBucket × Nat) :=
  if b.current_bucket_size < 1 then
    match fuel with
    | 0 => none
    | f + 1 => TokenBucket.throttleF f (b.resize_bucket (ts i)) ts (i + 1)
  else
    some (b, i)

/-- Method `TokenBucket.__aenter__` (one acquisition): resize, throttle, then
take one token. -/
def TokenBucket.acquireF (fuel : Nat) (b : TokenBucket) (ts : Nat → Nat)
    (i : Nat) : Option (TokenBucket × Nat) :=
  match TokenBucket.throttleF fuel (b.resize_bucket (ts i)) ts (i + 1) with
  | some (b2, j) =>
      some ({ b2 with current_bucket_size := b2.current_bucket_size - 1 }, j)
  | none => none

/-- A sequence of `n` acquisitions against one shared bucket (the release
on `__aexit__` is a no-op, so acquisitions compose directly). -/
def TokenBucket.acquireSeqF (fuel : Nat) (b : TokenBucket) (ts : Nat → Nat)
    (i : Nat) : Nat → Option (TokenBucket × Nat)
  | 0 => some (b, i)
  | n + 1 =>
      match TokenBucket.acquireF fuel b ts i with
      | some (b', j) => TokenBucket.acquireSeqF fuel b' ts j n
      | none => none

/-! ## Discovery phase (`api.py`, `TrendHunterAPI._fetch_all`, first loop)

Each iteration of `while len(urls) < n` draws three urls from the
(infinite) cursor chained after `extra_resources`, fetches them with
`propagate=True` (so in a non-exceptional run every resource is
delivered), and extracts link pairs.  The network fetch and the
BeautifulSoup extraction are collaborators, so the composition
`extract_urls(fetch(draw k))` is an oracle `ex : Nat → List URLPair`
indexed by the draw number; iteration `k` consumes draws `3k`, `3k+1`,
`3k+2` in order.  `n` is an `Int` because `execute` passes
`n - len(extra)`, which can be negative.  The Python loop has no
iteration bound; `fuel` counts loop iterations and `none` means the loop
is still running after `fuel` iterations. -/

/-- The inner `for extracted_url in extracted_urls` loop: append each
pair whose article url is not in the dedup set, recording it.  State is
(accumulated `urls` list, dedup set `all_urls` as a list). -/
def procExtracted (urls : List URLPair) (all_urls : List String) :
    List URLPair → List URLPair × List String
  | [] => (urls, all_urls)
  | e :: rest =>
      if e.url ∈ all_urls then procExtracted urls all_urls rest
      else procExtracted (urls ++ [e]) (all_urls ++ [e.url]) rest

/-- Processing one fetched resource: `limit = n - len(urls)` (inside the
loop `limit` is never negative, see `procResource_length_le`), slice the
extracted pairs to `limit`, then dedup-append. -/
def procResource (n : Int) (st : List URLPair × List String)
    (extracted : List URLPair) : List URLPair × List String :=
  let limit := (n - st.1.length).toNat
  procExtracted st.1 st.2 (extracted.take limit)

/-- The discovery loop.  `k` is the current iteration number (so draws
`3k`, `3k+1`, `3k+2` are consumed this iteration).  `none` = the Python
loop has not terminated within `fuel` iterations. -/
def discoverF (fuel : Nat) (n : Int) (ex : Nat → List URLPair) (k : Nat)
    (st : List URLPair × List String) : Option (List URLPair × List String) :=
  if (st.1.length : Int) < n then
    match fuel with
    | 0 => none
    | f + 1 =>
        let st1 := procResource n st (ex (3 * k))
        let st2 := procResource n st1 (ex (3 * k + 1))
        let st3 := procResource n st2 (ex (3 * k + 2))
        discoverF f n ex (k + 1) st3
  else
    some st

/-! ## Hydration phase (`api.py`, `TrendHunterAPI._fetch_all`, second loop)

`urls = extra + urls`, then `while urls:` splits off `urls[:m]` per
iteration, fetches the (detail page, thumbnail) pair for every entry with
the Degrade policy (each resource may be absent), and keeps an entry iff
both resources are present and the extracted text has a truthy title,
description or metadata.  The fetches and the BeautifulSoup call
`extract_text` are collaborators: `fp : URLPair → Option Resource ×
Option Resource` gives the two resources per entry and
`et : Resource → Text` is the extractor. -/

/-- Python truthiness of an optional string: `None` and `""` are falsy. -/
def optStrTruthy : Option String → Bool
  | none => false
  | some s => !(s == "")

/-- The `if not (text.title or text.description or text.metadata)` guard:
a `Metadata` named tuple is always truthy when present. -/
def textTruthy (t : Text) : Bool :=
  optStrTruthy t.title || optStrTruthy t.description || t.metadata.isSome

/-- The record a single chunk entry contributes, if any: requires both
resources present (`resources[0] and resources[1]`) and a truthy text;
the article is `Article(chunked_url[0], text, Image(chunked_url[1],
resources[1].content))`. -/
def entryRecord (fp : URLPair → Option Resource × Option Resource)
    (et : Resource → Text) (cu : URLPair) : Option Article :=
  match fp cu with
  | (some r0, some r1) =>
      let text := et r0
      if textTruthy text then
        some ⟨cu.url, text, ⟨some cu.image_url, some r1.content⟩⟩
      else none
  | _ => none

/-- One hydration chunk: dropped entries are skipped (`continue`),
surviving records keep chunk order. -/
def hydrateChunk (fp : URLPair → Option Resource × Option Resource)
    (et : Resource → Text) (chunk : List URLPair) : List Article :=
  chunk.filterMap (entryRecord fp et)

/-- The chunk decomposition performed by `while urls: chunked_urls, urls
= urls[:m], urls[m:]`.  `fuel` bounds loop iterations; with `m = 0` the
Python loop never terminates, and here the fuel runs out. -/
def chunksF (fuel : Nat) (m : Nat) (l : List URLPair) :
    Option (List (List URLPair)) :=
  match l with
  | [] => some []
  | x :: xs =>
      match fuel with
      | 0 => none
      | f + 1 =>
          (chunksF f m ((x :: xs).drop m)).map
            (fun cs => (x :: xs).take m :: cs)

/-- The hydration loop: one yielded batch per chunk, in chunk order.
The generator yields each batch before processing the next chunk; the
sequence of yielded values is the list computed here. -/
def hydrateF (fuel : Nat) (m : Nat) (l : List URLPair)
    (fp : URLPair → Option Resource × Option Resource)
    (et : Resource → Text) : Option (List (List Article)) :=
  (chunksF fuel m l).map (List.map (hydrateChunk fp et))

/-- Method `TrendHunterAPI._fetch_all`: discovery from the caller's dedup set,
then hydration of `extra + urls`.  Returns the yielded batches and the
final dedup set; `none` = one of the loops is still running within its
fuel. -/
def fetchAllF (fuelD fuelH : Nat) (n : Int) (m : Nat)
    (all_urls : List String) (extra : List URLPair)
    (ex : Nat → List URLPair)
    (fp : URLPair → Option Resource × Option Resource)
    (et : Resource → Text) :
    Option (List (List Article) × List String) :=
  match discoverF fuelD n ex 0 ([], all_urls) with
  | none => none
  | some (urls, all') =>
      match hydrateF fuelH m (extra ++ urls) fp et with
      | none => none
      | some batches => some (batches, all')

/-! ## `TrendHunterAPI.execute`

For `TREND` and `LIST` the seed page is fetched (`_fetch_one`, Fatal
policy) and parsed; the parse results are the collaborator-supplied
`seedText : Text` and `seedImage : Image` (from `extract_text` and
`extract_image_url_only` on the seed resource).  Missing metadata raises
`ResourceError`.  For `TREND` only, a seed with a thumbnail url whose
article url is not already in the caller's dedup set becomes the single
`extra` entry — note that `execute` checks membership but never records
the seed url into the set.  Then `_fetch_all` runs with
`n - len(extra)`. -/

/-- Modelled from the spec: the string value of a `PageType` from the
missing `taxonomies.py`, used only to build the seed url
`urljoin(BASE_URL, f"{page_type}/{uid}")`; the tests fix
`TREND = "trends"`, the others do not influence any claim. -/
def pageTypeStr : PageType → String
  | .TREND => "trends"
  | .LIST => "lists"
  | .CATAGORY => "categories"
  | .SEARCH => "search"

/-- Constant `BASE_URL` from `api.py`. -/
def BASE_URL : String := "https://www.trendhunter.com/"

/-- The seed url fetched by `_fetch_one` in `execute`. -/
def seedURL (pt : PageType) (uid : String) : String :=
  BASE_URL ++ pageTypeStr pt ++ "/" ++ uid

/-- Method `TrendHunterAPI.execute`.  `Except.error` is the `ResourceError`
raised when the seed metadata is missing; the `Option` layer is the loop
fuel as in `fetchAllF`. -/
def executeF (fuelD fuelH : Nat) (uid : String) (pt : PageType)
    (n : Int) (m : Nat) (urls : List String)
    (seedText : Text) (seedImage : Image)
    (ex : Nat → List URLPair)
    (fp : URLPair → Option Resource × Option Resource)
    (et : Resource → Text) :
    Except String (Option (List (List Article) × List String)) :=
  if pt = PageType.TREND ∨ pt = PageType.LIST then
    match seedText.metadata with
    | none => .error ("The metadata was not parsed from \"" ++
        seedURL pt uid ++ "\".")
    | some _ =>
        let extra : List URLPair :=
          match seedImage.url with
          | some imgUrl =>
              if pt = PageType.TREND ∧ seedURL pt uid ∉ urls then
                [⟨seedURL pt uid, imgUrl⟩]
              else []
          | none => []
        .ok (fetchAllF fuelD fuelH (n - extra.length) m urls extra ex fp et)
  else
    .ok (fetchAllF fuelD fuelH n m urls [] ex fp et)

/-! ## Cursor lemmas -/

/-- After `k` calls to `__next__` from a freshly constructed article
iterator, only `increment` has changed, to `k`. -/
theorem ArticleURLIterator.increment_stateAfter (eid cid : String) :
    ∀ k, (ArticleURLIterator.init eid cid).stateAfter k =
      ⟨eid, cid, 0, k⟩ := by
  intro k
  induction k with
  | zero => rfl
  | succ k ih =>
      simp [ArticleURLIterator.stateAfter, ArticleURLIterator.nextFn, ih]

/-- C5: for the article-pagination cursor started at its initial state,
the page index parameter of the k-th produced descriptor equals k (so it
never decreases across successive `next()` calls), the first produced
descriptor carries the entity identifier and not the category
identifier, and every subsequent descriptor carries the category
identifier and not the entity identifier.  (`descAt it k` is the
(k+1)-th produced descriptor, so its `p` is `k + 1`.) -/
theorem article_cursor_descriptors (eid cid : String) :
    (∀ k, ((ArticleURLIterator.init eid cid).descAt k).p = k + 1) ∧
    ((ArticleURLIterator.init eid cid).descAt 0).eid = some eid ∧
    ((ArticleURLIterator.init eid cid).descAt 0).cid = none ∧
    (∀ k, ((ArticleURLIterator.init eid cid).descAt (k + 1)).eid = none ∧
      ((ArticleURLIterator.init eid cid).descAt (k + 1)).cid = some cid) := by
  refine ⟨?_, ?_, ?_, ?_⟩
  · intro k
    simp [ArticleURLIterator.descAt, ArticleURLIterator.nextFn,
      ArticleURLIterator.increment_stateAfter]
  · rfl
  · rfl
  · intro k
    constructor
    · simp [ArticleURLIterator.descAt, ArticleURLIterator.nextFn,
        ArticleURLIterator.increment_stateAfter]
    · simp [ArticleURLIterator.descAt, ArticleURLIterator.nextFn,
        ArticleURLIterator.increment_stateAfter]

/-- C9: `iter()` on either cursor variant resets `increment` to the
initial value `0` (the base-class `_increment`, which is set once in
`__init__` and never written afterwards — `nextFn` keeps it intact), so
a re-iterated instance is the freshly initialised instance and its next
descriptor carries page index 1 (with the entity identifier again, for
the article variant). -/
theorem iter_resets_cursor :
    (∀ (eid cid : String) (inc : Nat),
      (ArticleURLIterator.iterFn ⟨eid, cid, 0, inc⟩ =
        ArticleURLIterator.init eid cid) ∧
      ((ArticleURLIterator.iterFn ⟨eid, cid, 0, inc⟩).nextFn.1.p = 1) ∧
      ((ArticleURLIterator.iterFn ⟨eid, cid, 0, inc⟩).nextFn.1.eid =
        some eid) ∧
      ((ArticleURLIterator.iterFn ⟨eid, cid, 0, inc⟩).nextFn.1.cid = none) ∧
      (∀ it : ArticleURLIterator, (it.nextFn.2).initIncrement =
        it.initIncrement)) ∧
    (∀ (uid : String) (pt : PageType) (b : Bool) (inc : Nat),
      (PageTypeURLIterator.iterFn ⟨uid, pt, b, 0, inc⟩ =
        PageTypeURLIterator.init uid pt b) ∧
      ((PageTypeURLIterator.iterFn ⟨uid, pt, b, 0, inc⟩).nextFn.1.p = 1) ∧
      (∀ it : PageTypeURLIterator, (it.nextFn.2).initIncrement =
        it.initIncrement)) := by
  constructor
  · intro eid cid inc
    refine ⟨rfl, rfl, rfl, rfl, fun it => rfl⟩
  · intro uid pt b inc
    refine ⟨rfl, rfl, fun it => rfl⟩

/-! ## Fetch primitive lemmas -/

/-- The fallback request did not deliver an HTTP 200 (it raised, or
returned another status). -/
def fallbackFailed : FallbackOutcome → Bool
  | .raised => true
  | .response status _ => !(status == 200)

/-- C4: for every single fetch — a transport error/timeout (which, per
the collaborator contract of spec section 6, includes any non-2xx
response) or a 2xx payload containing the empty-success sentinel is
treated as a transport failure; exactly one fallback request is then
attempted; a fallback HTTP 200 yields a success outcome carrying the
fallback body; if the fallback also fails, under `propagate = True`
(Fatal) the original error is raised and under `propagate = False`
(Degrade) an empty outcome is returned.  No further retries occur: the
fallback attempt count is always at most one, and zero on a clean
primary success (which returns the primary body). -/
theorem fetch_fallback_policy :
    (∀ (url content : String) (fb : FallbackOutcome) (prop : Bool),
      containsSentinel content = true →
        (asyncGetUrl url (.success content) fb prop).2 = 1) ∧
    (∀ (url : String) (e : FetchErr) (fb : FallbackOutcome) (prop : Bool),
      (asyncGetUrl url (.failure e) fb prop).2 = 1) ∧
    (∀ (url : String) (primary : PrimaryOutcome) (body : String)
        (prop : Bool),
      (primaryErr url primary).isSome = true →
        asyncGetUrl url primary (.response 200 body) prop =
          (.ok (some ⟨url, body⟩), 1)) ∧
    (∀ (url : String) (primary : PrimaryOutcome) (e : FetchErr)
        (fb : FallbackOutcome),
      primaryErr url primary = some e → fallbackFailed fb = true →
        asyncGetUrl url primary fb true = (.error e, 1)) ∧
    (∀ (url : String) (primary : PrimaryOutcome) (e : FetchErr)
        (fb : FallbackOutcome),
      primaryErr url primary = some e → fallbackFailed fb = true →
        asyncGetUrl url primary fb false = (.ok none, 1)) ∧
    (∀ (url : String) (primary : PrimaryOutcome) (fb : FallbackOutcome)
        (prop : Bool), (asyncGetUrl url primary fb prop).2 ≤ 1) ∧
    (∀ (url content : String) (fb : FallbackOutcome) (prop : Bool),
      containsSentinel content = false →
        asyncGetUrl url (.success content) fb prop =
          (.ok (some ⟨url, content⟩), 0)) := by
  refine ⟨?_, ?_, ?_, ?_, ?_, ?_, ?_⟩
  · intro url content fb prop h
    cases fb with
    | raised => cases prop <;> simp [asyncGetUrl, primaryErr, h]
    | response status body =>
        by_cases hs : status = 200 <;> cases prop <;>
          simp [asyncGetUrl, primaryErr, h, hs]
  · intro url e fb prop
    cases fb with
    | raised => cases prop <;> simp [asyncGetUrl, primaryErr]
    | response status body =>
        by_cases hs : status = 200 <;> cases prop <;>
          simp [asyncGetUrl, primaryErr, hs]
  · intro url primary body prop h
    rcases ho : primaryErr url primary with _ | e
    · rw [ho] at h; simp at h
    · simp [asyncGetUrl, ho]
  · intro url primary e fb h hf
    cases fb with
    | raised => simp [asyncGetUrl, h]
    | response status body =>
        have hs : ¬(status = 200) := by
          intro heq; subst heq; simp [fallbackFailed] at hf
        simp [asyncGetUrl, h, hs]
  · intro url primary e fb h hf
    cases fb with
    | raised => simp [asyncGetUrl, h]
    | response status body =>
        have hs : ¬(status = 200) := by
          intro heq; subst heq; simp [fallbackFailed] at hf
        simp [asyncGetUrl, h, hs]
  · intro url primary fb prop
    rcases ho : primaryErr url primary with _ | e
    · cases primary with
      | success content => simp [asyncGetUrl, ho]
      | failure e => simp [asyncGetUrl, ho]
    · cases fb with
      | raised => by_cases prop <;> simp_all [asyncGetUrl]
      | response status body =>
          by_cases hs : status = 200 <;> by_cases prop <;>
            simp_all [asyncGetUrl]
  · intro url content fb prop h
    simp [asyncGetUrl, primaryErr, h]

/-- Witness for C4 at concrete inputs: a primary `ClientError` followed
by a fallback HTTP 200 succeeds with the fallback body; with a raising
fallback, `propagate = True` re-raises the original error and
`propagate = False` returns the empty outcome. -/
theorem fetch_fallback_policy_witness :
    asyncGetUrl "u" (.failure .clientError) (.response 200 "b") true =
      (.ok (some ⟨"u", "b"⟩), 1) ∧
    asyncGetUrl "u" (.failure .clientError) .raised true =
      (.error .clientError, 1) ∧
    asyncGetUrl "u" (.failure .clientError) .raised false =
      (.ok none, 1) :=
  ⟨fetch_fallback_policy.2.2.1 "u" (.failure .clientError) "b" true
      (by decide),
   fetch_fallback_policy.2.2.2.1 "u" (.failure .clientError) .clientError
      .raised (by decide) (by decide),
   fetch_fallback_policy.2.2.2.2.1 "u" (.failure .clientError) .clientError
      .raised (by decide) (by decide)⟩

/-! ## Token bucket lemmas -/

/-- Refilling via `resize_bucket` keeps the capacity field and never lifts the token
count above capacity (the refill is capped by `min`; the very first call
only records the timestamp). -/
theorem TokenBucket.resize_bucket_le (b : TokenBucket) (t : Nat) :
    (b.resize_bucket t).max_bucket_size = b.max_bucket_size ∧
    (b.current_bucket_size ≤ (b.max_bucket_size : Rat) →
      (b.resize_bucket t).current_bucket_size ≤ (b.max_bucket_size : Rat)) := by
  cases hb : b.bucket_resized_at with
  | none => exact ⟨by simp [TokenBucket.resize_bucket, hb],
      fun h => by simpa [TokenBucket.resize_bucket, hb] using h⟩
  | some t0 =>
      refine ⟨by simp [TokenBucket.resize_bucket, hb], fun _ => ?_⟩
      simp only [TokenBucket.resize_bucket, hb]
      exact min_le_right _ _

/-- The loop `throttle` returns only once at least one token is available, keeps
the capacity field, and preserves the capacity upper bound. -/
theorem TokenBucket.throttleF_spec (ts : Nat → Nat) :
    ∀ (fuel : Nat) (b : TokenBucket) (i : Nat) (b2 : TokenBucket) (j : Nat),
      TokenBucket.throttleF fuel b ts i = some (b2, j) →
      b2.max_bucket_size = b.max_bucket_size ∧
      1 ≤ b2.current_bucket_size ∧
      (b.current_bucket_size ≤ (b.max_bucket_size : Rat) →
        b2.current_bucket_size ≤ (b.max_bucket_size : Rat)) := by
  intro fuel
  induction fuel with
  | zero =>
      intro b i b2 j h
      by_cases hc : b.current_bucket_size < 1
      · simp [TokenBucket.throttleF, hc] at h
      · simp [TokenBucket.throttleF, hc] at h
        obtain ⟨rfl, rfl⟩ := h
        exact ⟨rfl, le_of_not_lt hc, fun h => h⟩
  | succ f ih =>
      intro b i b2 j h
      by_cases hc : b.current_bucket_size < 1
      · simp only [TokenBucket.throttleF, hc, if_true] at h
        obtain ⟨hmax, hone, hle⟩ := ih (b.resize_bucket (ts i)) (i + 1) b2 j h
        obtain ⟨hmax', hle'⟩ := TokenBucket.resize_bucket_le b (ts i)
        refine ⟨hmax.trans hmax', hone, fun hb => ?_⟩
        have := hle (by rw [hmax']; exact hle' hb)
        rwa [hmax'] at this
      · simp [TokenBucket.throttleF, hc] at h
        obtain ⟨rfl, rfl⟩ := h
        exact ⟨rfl, le_of_not_lt hc, fun h => h⟩

/-- One acquisition keeps the capacity field, keeps the token count at
most capacity, and — because the decrement happens only after `throttle`
has seen at least one token — leaves a non-negative token count. -/
theorem TokenBucket.acquireF_spec (fuel : Nat) (b : TokenBucket)
    (ts : Nat → Nat) (i : Nat) (b' : TokenBucket) (j : Nat)
    (hcap : b.current_bucket_size ≤ (b.max_bucket_size : Rat))
    (h : TokenBucket.acquireF fuel b ts i = some (b', j)) :
    b'.max_bucket_size = b.max_bucket_size ∧
    0 ≤ b'.current_bucket_size ∧
    b'.current_bucket_size ≤ (b'.max_bucket_size : Rat) := by
  simp only [TokenBucket.acquireF] at h
  rcases ht : TokenBucket.throttleF fuel (b.resize_bucket (ts i)) ts (i + 1)
    with _ | ⟨b2, j2⟩
  · rw [ht] at h; simp at h
  · rw [ht] at h
    simp at h
    obtain ⟨rfl, rfl⟩ := h
    obtain ⟨hmax', hle'⟩ := TokenBucket.resize_bucket_le b (ts i)
    obtain ⟨hmax, hone, hle⟩ :=
      TokenBucket.throttleF_spec ts fuel _ (i + 1) b2 j2 ht
    have hmax2 : b2.max_bucket_size = b.max_bucket_size := hmax.trans hmax'
    have hb2 : b2.current_bucket_size ≤ (b.max_bucket_size : Rat) := by
      have := hle (by rw [hmax']; exact hle' hcap)
      rwa [hmax'] at this
    refine ⟨hmax2, ?_, ?_⟩
    · show (0 : Rat) ≤ b2.current_bucket_size - 1
      linarith
    · show b2.current_bucket_size - 1 ≤ (b2.max_bucket_size : Rat)
      rw [hmax2]
      linarith

/-- C7: for every `TokenBucket` accepted by `__init__` (capacity `C > 0`
and rate `R > 0`) and every sequence of acquisitions under every
possible clock, the token count never exceeds `C` (the refill in
`resize_bucket` is capped at capacity) and is never negative after a
successful acquisition (the decrement happens only once `throttle` has
seen a count `≥ 1`): after any completed acquisition sequence,
`0 ≤ current_bucket_size ≤ C`. -/
theorem token_bucket_bounds (C : Int) (R : Rat) (b0 : TokenBucket)
    (hinit : TokenBucket.init C R = .ok b0) (ts : Nat → Nat)
    (fuel i cnt : Nat) (b' : TokenBucket) (j : Nat)
    (hrun : TokenBucket.acquireSeqF fuel b0 ts i cnt = some (b', j)) :
    0 ≤ b'.current_bucket_size ∧
    b'.current_bucket_size ≤ (C : Rat) ∧
    b'.max_bucket_size = C := by
  have hb0 : b0.max_bucket_size = C ∧
      b0.current_bucket_size = (C : Rat) ∧ 0 < C := by
    by_cases h1 : C ≤ 0
    · simp [TokenBucket.init, h1] at hinit
    · by_cases h2 : R ≤ 0
      · simp [TokenBucket.init, h1, h2] at hinit
      · simp [TokenBucket.init, h1, h2] at hinit
        subst hinit
        exact ⟨rfl, rfl, lt_of_not_le h1⟩
  obtain ⟨hmax0, hcur0, hCpos⟩ := hb0
  have main : ∀ (cnt : Nat) (b : TokenBucket) (i : Nat) (b' : TokenBucket)
      (j : Nat), b.max_bucket_size = C →
      0 ≤ b.current_bucket_size →
      b.current_bucket_size ≤ (C : Rat) →
      TokenBucket.acquireSeqF fuel b ts i cnt = some (b', j) →
      0 ≤ b'.current_bucket_size ∧ b'.current_bucket_size ≤ (C : Rat) ∧
        b'.max_bucket_size = C := by
    intro cnt
    induction cnt with
    | zero =>
        intro b i b' j hmax h0 hC h
        simp [TokenBucket.acquireSeqF] at h
        obtain ⟨rfl, rfl⟩ := h
        exact ⟨h0, hC, hmax⟩
    | succ k ih =>
        intro b i b' j hmax h0 hC h
        simp only [TokenBucket.acquireSeqF] at h
        rcases ha : TokenBucket.acquireF fuel b ts i with _ | ⟨b1, j1⟩
        · rw [ha] at h; simp at h
        · rw [ha] at h
          obtain ⟨hmax1, h01, hle1⟩ :=
            TokenBucket.acquireF_spec fuel b ts i b1 j1 (by rw [hmax]; exact hC) ha
          exact ih b1 j1 b' j (hmax1.trans hmax) h01
            (by rw [← hmax, ← hmax1]; exact hle1) h
  exact main cnt b0 i b' j hmax0 (by rw [hcur0]; positivity)
    (le_of_eq hcur0) hrun

/-- Witness for C7: a bucket of capacity 1 and rate 1 completes one
acquisition instantly (one token available) and ends with
`0 ≤ current = 0 ≤ 1`. -/
theorem token_bucket_bounds_witness :
    TokenBucket.init 1 1 = .ok ⟨1, 1, 1, none⟩ ∧
    TokenBucket.acquireSeqF 1 ⟨1, 1, 1, none⟩ (fun _ => 0) 0 1 =
      some (⟨1, 1, 0, some 0⟩, 1) ∧
    (0 ≤ (TokenBucket.mk 1 1 0 (some 0)).current_bucket_size ∧
      (TokenBucket.mk 1 1 0 (some 0)).current_bucket_size ≤ ((1 : Int) : Rat) ∧
      (TokenBucket.mk 1 1 0 (some 0)).max_bucket_size = 1) := by
  have hinit : TokenBucket.init 1 1 = .ok ⟨1, 1, 1, none⟩ := by rfl
  have hrun : TokenBucket.acquireSeqF 1 ⟨1, 1, 1, none⟩ (fun _ => 0) 0 1 =
      some (⟨1, 1, 0, some 0⟩, 1) := by
    norm_num [TokenBucket.acquireSeqF, TokenBucket.acquireF,
      TokenBucket.throttleF, TokenBucket.resize_bucket]
  exact ⟨hinit, hrun,
    token_bucket_bounds 1 1 ⟨1, 1, 1, none⟩ hinit (fun _ => 0) 1 0 1
      ⟨1, 1, 0, some 0⟩ 1 hrun⟩

/-! ## Discovery lemmas -/

/-- The dedup-append loop adds at most one list entry per extracted
pair. -/
theorem procExtracted_length_le :
    ∀ (l : List URLPair) (urls : List URLPair) (all_urls : List String),
      (procExtracted urls all_urls l).1.length ≤ urls.length + l.length := by
  intro l
  induction l with
  | nil => intro urls all_urls; simp [procExtracted]
  | cons e rest ih =>
      intro urls all_urls
      by_cases he : e.url ∈ all_urls
      · simp only [procExtracted, he, if_true]
        calc (procExtracted urls all_urls rest).1.length
            ≤ urls.length + rest.length := ih urls all_urls
          _ ≤ urls.length + (rest.length + 1) := by omega
      · simp only [procExtracted, he, if_false]
        calc (procExtracted (urls ++ [e]) (all_urls ++ [e.url]) rest).1.length
            ≤ (urls ++ [e]).length + rest.length := ih _ _
          _ = urls.length + (rest.length + 1) := by simp; omega

/-- Processing one resource never pushes the accumulated url list past
`n`: the slice `[:limit]` caps the additions at `n - len(urls)`. -/
theorem procResource_length_le (n : Int) (st : List URLPair × List String)
    (extracted : List URLPair) (h : (st.1.length : Int) ≤ n) :
    ((procResource n st extracted).1.length : Int) ≤ n := by
  simp only [procResource]
  have hle := procExtracted_length_le
    (extracted.take (n - st.1.length).toNat) st.1 st.2
  have htake : (extracted.take (n - st.1.length).toNat).length ≤
      (n - st.1.length).toNat := by
    simp
  omega

/-- A completed discovery loop ends with at most `n` accumulated urls
(provided it starts that way; the orchestrator starts it empty). -/
theorem discoverF_length_le (ex : Nat → List URLPair) (n : Int) :
    ∀ (fuel k : Nat) (st : List URLPair × List String)
      (st' : List URLPair × List String),
      (st.1.length : Int) ≤ n →
      discoverF fuel n ex k st = some st' →
      (st'.1.length : Int) ≤ n := by
  intro fuel
  induction fuel with
  | zero =>
      intro k st st' hle h
      by_cases hc : (st.1.length : Int) < n
      · simp [discoverF, hc] at h
      · simp [discoverF, hc] at h
        subst h; exact hle
  | succ f ih =>
      intro k st st' hle h
      by_cases hc : (st.1.length : Int) < n
      · simp only [discoverF, hc, if_true] at h
        refine ih (k + 1) _ st' ?_ h
        exact procResource_length_le n _ _
          (procResource_length_le n _ _ (procResource_length_le n _ _ hle))
      · simp [discoverF, hc] at h
        subst h; exact hle

/-- With `n ≤ 0` — or generally when the accumulated list already
reaches `n` — the discovery loop exits immediately without touching the
state, issuing no listing-page fetches (the result does not depend on
the page oracle `ex` and needs no fuel). -/
theorem discoverF_skip (fuel : Nat) (n : Int) (ex : Nat → List URLPair)
    (k : Nat) (st : List URLPair × List String)
    (h : n ≤ (st.1.length : Int)) :
    discoverF fuel n ex k st = some st := by
  have hc : ¬((st.1.length : Int) < n) := not_lt.mpr h
  cases fuel <;> simp [discoverF, hc]

/-- C1 (code bug): the discovery loop of `_fetch_all` has no fail-safe
iteration bound — no `FailSafeExceededError` exists anywhere in the
source.  When the cursor pages stop yielding new unique links (here:
every fetched listing page extracts to no links, with one more link
still wanted), the loop `while len(urls) < n` never terminates: for
every iteration bound `fuel` it is still running (`none`), for any
starting iteration index and any dedup set, rather than raising a fatal
error as the spec requires. -/
theorem discovery_never_failsafe :
    ∀ (fuel k : Nat) (all_urls : List String),
      discoverF fuel 1 (fun _ => []) k ([], all_urls) = none := by
  intro fuel
  induction fuel with
  | zero =>
      intro k all_urls
      simp [discoverF]
  | succ f ih =>
      intro k all_urls
      simp only [discoverF, procResource, procExtracted, List.take_nil]
      simp [procResource, procExtracted, ih (k + 1) all_urls]

/-! ## Hydration lemmas -/

/-- The batch-size shape promised by the spec for a total of `t` records
split into chunks of `m`: `m, m, …, remainder`. -/
def chunkSizes (m : Nat) (t : Nat) : List Nat :=
  if h0 : 0 < m ∧ 0 < t then min m t :: chunkSizes m (t - m)
  else []
termination_by t
decreasing_by omega

/-- A completed chunk decomposition concatenates back to the input list:
chunking loses no entries and preserves order. -/
theorem chunksF_join (m : Nat) :
    ∀ (fuel : Nat) (l : List URLPair) (cs : List (List URLPair)),
      chunksF fuel m l = some cs → cs.flatten = l := by
  intro fuel
  induction fuel with
  | zero =>
      intro l cs h
      cases l with
      | nil => simp [chunksF] at h; subst h; rfl
      | cons x xs => simp [chunksF] at h
  | succ f ih =>
      intro l cs h
      cases l with
      | nil => simp [chunksF] at h; subst h; rfl
      | cons x xs =>
          simp only [chunksF, Option.map_eq_some'] at h
          obtain ⟨cs', hcs', rfl⟩ := h
          have := ih _ _ hcs'
          simp [List.flatten, this, List.take_append_drop]

/-- A completed chunk decomposition with `m ≥ 1` has the spec's batch
shape: sizes `m, m, …, remainder`. -/
theorem chunksF_lengths (m : Nat) (hm : 1 ≤ m) :
    ∀ (fuel : Nat) (l : List URLPair) (cs : List (List URLPair)),
      chunksF fuel m l = some cs →
      cs.map List.length = chunkSizes m l.length := by
  intro fuel
  induction fuel with
  | zero =>
      intro l cs h
      cases l with
      | nil =>
          simp [chunksF] at h; subst h
          rw [chunkSizes]
          simp
      | cons x xs => simp [chunksF] at h
  | succ f ih =>
      intro l cs h
      cases l with
      | nil =>
          simp [chunksF] at h; subst h
          rw [chunkSizes]
          simp
      | cons x xs =>
          simp only [chunksF, Option.map_eq_some'] at h
          obtain ⟨cs', hcs', rfl⟩ := h
          have hrec := ih _ _ hcs'
          have hpos : 0 < m ∧ 0 < (x :: xs).length := by simp; omega
          rw [chunkSizes, dif_pos hpos]
          simp only [List.map_cons, hrec, List.length_take, List.length_drop]

/-- A kept hydration record carries the article url of its chunk
entry. -/
theorem entryRecord_url (fp : URLPair → Option Resource × Option Resource)
    (et : Resource → Text) (cu : URLPair) (a : Article)
    (h : entryRecord fp et cu = some a) : a.url = cu.url := by
  simp only [entryRecord] at h
  rcases hf : fp cu with ⟨r0, r1⟩
  rw [hf] at h
  cases r0 with
  | none => simp at h
  | some r0 =>
      cases r1 with
      | none => simp at h
      | some r1 =>
          by_cases ht : textTruthy (et r0)
          · simp [ht] at h; subst h; rfl
          · simp [ht] at h

/-- The urls of a hydrated chunk form an order-preserving sublist of the
chunk's urls (drops only remove entries). -/
theorem hydrateChunk_urls_sublist
    (fp : URLPair → Option Resource × Option Resource)
    (et : Resource → Text) :
    ∀ chunk : List URLPair,
      ((hydrateChunk fp et chunk).map Article.url).Sublist
        (chunk.map URLPair.url) := by
  intro chunk
  induction chunk with
  | nil => simp [hydrateChunk]
  | cons cu rest ih =>
      simp only [hydrateChunk, List.filterMap_cons]
      rcases he : entryRecord fp et cu with _ | a
      · simp only [List.map_cons]
        exact (show ((hydrateChunk fp et rest).map Article.url).Sublist _
          from ih).cons _
      · simp only [List.map_cons]
        rw [entryRecord_url fp et cu a he]
        exact (show ((hydrateChunk fp et rest).map Article.url).Sublist _
          from ih).cons₂ _

/-- If no entry of a chunk is dropped, hydration keeps its length. -/
theorem hydrateChunk_length_of_nodrop
    (fp : URLPair → Option Resource × Option Resource)
    (et : Resource → Text)
    (hnd : ∀ cu : URLPair, (entryRecord fp et cu).isSome = true) :
    ∀ chunk : List URLPair, (hydrateChunk fp et chunk).length = chunk.length := by
  intro chunk
  induction chunk with
  | nil => simp [hydrateChunk]
  | cons cu rest ih =>
      simp only [hydrateChunk, List.filterMap_cons]
      rcases he : entryRecord fp et cu with _ | a
      · have := hnd cu; rw [he] at this; simp at this
      · simp only [List.length_cons]
        simpa [hydrateChunk] using ih

/-- C6: during hydration, a chunk entry contributes a record iff both
its detail-page resource and its thumbnail resource are present and the
extracted text has at least one of title, description or metadata
truthy (non-`None` and, for the strings, non-empty); dropped entries
only shrink their batch (`continue`), and a Degrade-policy failure never
terminates the batch stream: the stream structure — whether the run
completes and how many batches it yields — is the same under every
resource / extraction oracle. -/
theorem hydration_drop_rule :
    (∀ (fp : URLPair → Option Resource × Option Resource)
        (et : Resource → Text) (cu : URLPair),
      (entryRecord fp et cu).isSome = true ↔
        (∃ r0 r1, fp cu = (some r0, some r1) ∧ textTruthy (et r0) = true)) ∧
    (∀ (fp : URLPair → Option Resource × Option Resource)
        (et : Resource → Text) (chunk : List URLPair),
      hydrateChunk fp et chunk = chunk.filterMap (entryRecord fp et) ∧
      (hydrateChunk fp et chunk).length ≤ chunk.length) ∧
    (∀ (fuel m : Nat) (l : List URLPair) fp et fp' et',
      (hydrateF fuel m l fp et).map List.length =
        (hydrateF fuel m l fp' et').map List.length) := by
  refine ⟨?_, ?_, ?_⟩
  · intro fp et cu
    constructor
    · intro h
      rcases hf : fp cu with ⟨r0, r1⟩
      cases r0 with
      | none => simp [entryRecord, hf] at h
      | some r0 =>
          cases r1 with
          | none => simp [entryRecord, hf] at h
          | some r1 =>
              by_cases ht : textTruthy (et r0)
              · exact ⟨r0, r1, rfl, ht⟩
              · simp [entryRecord, hf, ht] at h
    · rintro ⟨r0, r1, hf, ht⟩
      simp [entryRecord, hf, ht]
  · intro fp et chunk
    exact ⟨rfl, List.length_filterMap_le _ _⟩
  · intro fuel m l fp et fp' et'
    simp only [hydrateF]
    cases chunksF fuel m l <;> simp

/-- A completed `_fetch_all` run decomposes into a completed discovery
and the per-chunk hydration of `extra ++ urls`. -/
theorem fetchAllF_spec (fuelD fuelH : Nat) (n : Int) (m : Nat)
    (all_urls : List String) (extra : List URLPair)
    (ex : Nat → List URLPair)
    (fp : URLPair → Option Resource × Option Resource)
    (et : Resource → Text) (batches : List (List Article))
    (set' : List String)
    (h : fetchAllF fuelD fuelH n m all_urls extra ex fp et =
      some (batches, set')) :
    ∃ (urls : List URLPair) (cs : List (List URLPair)),
      discoverF fuelD n ex 0 ([], all_urls) = some (urls, set') ∧
      chunksF fuelH m (extra ++ urls) = some cs ∧
      batches = cs.map (hydrateChunk fp et) := by
  simp only [fetchAllF] at h
  rcases hd : discoverF fuelD n ex 0 ([], all_urls) with _ | ⟨urls, all'⟩
  · rw [hd] at h; simp at h
  · rw [hd] at h
    dsimp only at h
    rcases hh : hydrateF fuelH m (extra ++ urls) fp et with _ | bs
    · rw [hh] at h; simp at h
    · rw [hh] at h
      dsimp only at h
      simp at h
      obtain ⟨rfl, rfl⟩ := h
      simp only [hydrateF, Option.map_eq_some'] at hh
      obtain ⟨cs, hcs, rfl⟩ := hh
      exact ⟨urls, cs, rfl, hcs, rfl⟩

/-- Any completed `execute` run reduces to a `_fetch_all` run on
`n - len(extra)` with at most one extra entry. -/
theorem executeF_ok (fuelD fuelH : Nat) (uid : String) (pt : PageType)
    (n : Int) (m : Nat) (urls0 : List String) (seedText : Text)
    (seedImage : Image) (ex : Nat → List URLPair)
    (fp : URLPair → Option Resource × Option Resource)
    (et : Resource → Text) (batches : List (List Article))
    (set' : List String)
    (hrun : executeF fuelD fuelH uid pt n m urls0 seedText seedImage ex fp et =
      .ok (some (batches, set'))) :
    ∃ extra : List URLPair, extra.length ≤ 1 ∧
      fetchAllF fuelD fuelH (n - extra.length) m urls0 extra ex fp et =
        some (batches, set') := by
  by_cases hpt : pt = PageType.TREND ∨ pt = PageType.LIST
  · simp only [executeF, hpt, if_true] at hrun
    rcases hmd : seedText.metadata with _ | md
    · rw [hmd] at hrun; simp at hrun
    · rw [hmd] at hrun
      simp only [Except.ok.injEq] at hrun
      rcases himg : seedImage.url with _ | imgUrl
      · rw [himg] at hrun
        exact ⟨[], by simp, by simpa using hrun⟩
      · rw [himg] at hrun
        dsimp only at hrun
        by_cases hcond : pt = PageType.TREND ∧ seedURL pt uid ∉ urls0
        · rw [if_pos hcond] at hrun
          exact ⟨[⟨seedURL pt uid, imgUrl⟩], by simp, by simpa using hrun⟩
        · rw [if_neg hcond] at hrun
          exact ⟨[], by simp, by simpa using hrun⟩
  · simp only [executeF, hpt, if_false, Except.ok.injEq] at hrun
    exact ⟨[], by simp, by simpa using hrun⟩

/-- Completed `_fetch_all` totals: at most `n + len(extra)` hydrated
records, and absent drops the batch sizes follow the spec shape
`m, m, …, remainder` for the total link count. -/
theorem fetchAllF_sizes (fuelD fuelH : Nat) (n : Int) (m : Nat)
    (all_urls : List String) (extra : List URLPair)
    (ex : Nat → List URLPair)
    (fp : URLPair → Option Resource × Option Resource)
    (et : Resource → Text) (batches : List (List Article))
    (set' : List String) (hn : 0 ≤ n) (hm : 1 ≤ m)
    (h : fetchAllF fuelD fuelH n m all_urls extra ex fp et =
      some (batches, set')) :
    (((batches.map List.length).sum : Int) ≤ n + extra.length) ∧
    ∃ total : Nat, (total : Int) ≤ n + extra.length ∧
      ((∀ cu : URLPair, (entryRecord fp et cu).isSome = true) →
        batches.map List.length = chunkSizes m total) := by
  obtain ⟨urls, cs, hd, hcs, rfl⟩ := fetchAllF_spec fuelD fuelH n m all_urls
    extra ex fp et batches set' h
  have hurls : (urls.length : Int) ≤ n :=
    discoverF_length_le ex n fuelD 0 ([], all_urls) (urls, set')
      (by simpa using hn) hd
  have htotal : ((extra ++ urls).length : Int) ≤ n + extra.length := by
    simp only [List.length_append]
    push_cast
    omega
  have hflat : cs.flatten = extra ++ urls := chunksF_join m fuelH _ cs hcs
  have hsum : ((cs.map (hydrateChunk fp et)).map List.length).sum ≤
      (extra ++ urls).length := by
    calc ((cs.map (hydrateChunk fp et)).map List.length).sum
        ≤ (cs.map List.length).sum := by
          rw [List.map_map]
          refine List.sum_le_sum ?_
          intro c _
          exact List.length_filterMap_le _ _
      _ = cs.flatten.length := (List.length_flatten cs).symm
      _ = (extra ++ urls).length := by rw [hflat]
  refine ⟨by exact_mod_cast le_trans (Int.ofNat_le.mpr hsum) htotal,
    (extra ++ urls).length, htotal, ?_⟩
  intro hnd
  have : (cs.map (hydrateChunk fp et)).map List.length = cs.map List.length := by
    rw [List.map_map]
    refine List.map_congr_left ?_
    intro c _
    exact hydrateChunk_length_of_nodrop fp et hnd c
  rw [this, chunksF_lengths m hm fuelH _ cs hcs]

/-- C2 (amended): for every completed run of `execute` with chunk size
`m ≥ 1` and requested count `n ≥ 1`, the total number of hydrated
records over all yielded batches is at most `n`, and absent any dropped
records the batch sizes are exactly `m, m, …, remainder` in that order
(`chunkSizes m total` for the run's total link count, itself at most
`n`).  The original claim extended the bound to `n = 0`; that fails in
`TREND` mode, where the seed extra is hydrated even when `n = 0` (see
the counterexample), so the bound here requires `n ≥ 1`. -/
theorem execute_batch_sizes (fuelD fuelH : Nat) (uid : String)
    (pt : PageType) (n : Int) (m : Nat) (urls0 : List String)
    (seedText : Text) (seedImage : Image) (ex : Nat → List URLPair)
    (fp : URLPair → Option Resource × Option Resource)
    (et : Resource → Text) (batches : List (List Article))
    (set' : List String) (hn : 1 ≤ n) (hm : 1 ≤ m)
    (hrun : executeF fuelD fuelH uid pt n m urls0 seedText seedImage ex fp et =
      .ok (some (batches, set'))) :
    (((batches.map List.length).sum : Int) ≤ n) ∧
    ∃ total : Nat, (total : Int) ≤ n ∧
      ((∀ cu : URLPair, (entryRecord fp et cu).isSome = true) →
        batches.map List.length = chunkSizes m total) := by
  obtain ⟨extra, hex, hfa⟩ := executeF_ok fuelD fuelH uid pt n m urls0
    seedText seedImage ex fp et batches set' hrun
  have hn' : 0 ≤ n - extra.length := by omega
  have := fetchAllF_sizes fuelD fuelH (n - extra.length) m urls0 extra ex
    fp et batches set' hn' hm hfa
  obtain ⟨hsum, total, htotal, hshape⟩ := this
  have heq : n - (extra.length : Int) + extra.length = n := by ring
  rw [heq] at hsum htotal
  exact ⟨hsum, total, htotal, hshape⟩

/-- Counterexample to C2 as stated: a `TREND`-mode run with requested
count `n = 0` still hydrates the seed's extra record (because `execute`
builds the extra before calling `_fetch_all` with `n - len(extra) = -1`,
which skips discovery but not hydration), so the total hydrated record
count is `1 > 0` and the data-model invariant "total ≤ N for every run,
including N = 0" fails. -/
theorem execute_total_exceeds_zero :
    executeF 1 1 "u" PageType.TREND 0 1 []
      ⟨some "t", none, some ⟨"e", "c"⟩⟩ ⟨some "img", none⟩
      (fun _ => [])
      (fun cu => (some ⟨cu.url, "d"⟩, some ⟨cu.image_url, "I"⟩))
      (fun _ => ⟨some "t", none, some ⟨"e", "c"⟩⟩) =
      .ok (some ([[⟨seedURL PageType.TREND "u",
          ⟨some "t", none, some ⟨"e", "c"⟩⟩,
          ⟨some "img", some "I"⟩⟩]], [])) ∧
    ¬(((([[(⟨seedURL PageType.TREND "u",
          ⟨some "t", none, some ⟨"e", "c"⟩⟩,
          ⟨some "img", some "I"⟩⟩ : Article)]] :
        List (List Article)).map List.length).sum : Int) ≤ 0) := by
  constructor
  · rfl
  · decide

/-- Witness for C2 at a concrete completed run: `TREND` mode, `n = 2`,
`m = 1`, one discovered link plus the seed extra — two batches of one
record each, total `2 ≤ 2`, shape `[1, 1] = chunkSizes 1 2`. -/
theorem execute_batch_sizes_witness :
    (((([[⟨seedURL PageType.TREND "u",
          ⟨some "t", none, some ⟨"e", "c"⟩⟩, ⟨some "img", some "I"⟩⟩],
        [⟨"a", ⟨some "t", none, some ⟨"e", "c"⟩⟩, ⟨some "ia", some "I"⟩⟩]] :
        List (List Article)).map List.length).sum : Int) ≤ 2) ∧
    ∃ total : Nat, (total : Int) ≤ 2 ∧
      ((∀ cu : URLPair, (entryRecord
          (fun cu => (some ⟨cu.url, "d"⟩, some ⟨cu.image_url, "I"⟩))
          (fun _ => ⟨some "t", none, some ⟨"e", "c"⟩⟩) cu).isSome = true) →
        ([[⟨seedURL PageType.TREND "u",
            ⟨some "t", none, some ⟨"e", "c"⟩⟩, ⟨some "img", some "I"⟩⟩],
          [⟨"a", ⟨some "t", none, some ⟨"e", "c"⟩⟩,
            ⟨some "ia", some "I"⟩⟩]] :
          List (List Article)).map List.length = chunkSizes 1 total) :=
  execute_batch_sizes 1 2 "u" PageType.TREND 2 1 []
    ⟨some "t", none, some ⟨"e", "c"⟩⟩ ⟨some "img", none⟩
    (fun k => if k = 0 then [⟨"a", "ia"⟩] else [])
    (fun cu => (some ⟨cu.url, "d"⟩, some ⟨cu.image_url, "I"⟩))
    (fun _ => ⟨some "t", none, some ⟨"e", "c"⟩⟩)
    _ _ (by decide) (by decide) rfl

/-- Concatenating the hydrated batches of a chunk list gives an
order-preserving sublist of the chunk list's article urls. -/
theorem hydrate_flatten_sublist
    (fp : URLPair → Option Resource × Option Resource)
    (et : Resource → Text) :
    ∀ cs : List (List URLPair),
      (((cs.map (hydrateChunk fp et)).map (List.map Article.url)).flatten).Sublist
        ((cs.flatten).map URLPair.url) := by
  intro cs
  induction cs with
  | nil => simp
  | cons c rest ih =>
      simp only [List.map_cons, List.flatten_cons, List.map_append]
      exact (hydrateChunk_urls_sublist fp et c).append ih

/-- C8: for every completed `_fetch_all` run, the hydration list is the
seed extras followed by the discovered links in discovery order
(`cs.flatten = extra ++ urls`), each yielded batch is the
order-preserving hydration of one chunk, the batches appear in chunk
order, and therefore the concatenation of all yielded records' urls is
an order-preserving sublist of `extra ++ urls`'s urls: within a batch,
record order matches discovery order; the extras precede all discovered
links; and every link in an earlier batch was discovered no later than
any link in a later batch. -/
theorem batch_ordering (fuelD fuelH : Nat) (n : Int) (m : Nat)
    (all_urls : List String) (extra : List URLPair)
    (ex : Nat → List URLPair)
    (fp : URLPair → Option Resource × Option Resource)
    (et : Resource → Text) (batches : List (List Article))
    (set' : List String)
    (h : fetchAllF fuelD fuelH n m all_urls extra ex fp et =
      some (batches, set')) :
    ∃ (urls : List URLPair) (cs : List (List URLPair)),
      discoverF fuelD n ex 0 ([], all_urls) = some (urls, set') ∧
      chunksF fuelH m (extra ++ urls) = some cs ∧
      cs.flatten = extra ++ urls ∧
      batches = cs.map (hydrateChunk fp et) ∧
      ((batches.map (List.map Article.url)).flatten).Sublist
        ((extra ++ urls).map URLPair.url) := by
  obtain ⟨urls, cs, hd, hcs, rfl⟩ := fetchAllF_spec fuelD fuelH n m all_urls
    extra ex fp et batches set' h
  have hflat := chunksF_join m fuelH _ cs hcs
  refine ⟨urls, cs, hd, hcs, hflat, rfl, ?_⟩
  have := hydrate_flatten_sublist fp et cs
  rwa [hflat] at this

/-- Witness for C8 at a concrete completed run: seed extra `"s"` plus
one discovered link `"a"`, chunk size 1 — the decomposition exists and
the yielded urls `["s", "a"]` follow the hydration list order. -/
theorem batch_ordering_witness :
    ∃ (urls : List URLPair) (cs : List (List URLPair)),
      discoverF 1 1 (fun k => if k = 0 then [⟨"a", "ia"⟩] else []) 0
        ([], []) = some (urls, ["a"]) ∧
      chunksF 2 1 ([⟨"s", "is"⟩] ++ urls) = some cs ∧
      cs.flatten = [⟨"s", "is"⟩] ++ urls ∧
      ([[⟨"s", ⟨some "t", none, none⟩, ⟨some "is", some "I"⟩⟩],
        [⟨"a", ⟨some "t", none, none⟩, ⟨some "ia", some "I"⟩⟩]] :
        List (List Article)) =
        cs.map (hydrateChunk
          (fun cu => (some ⟨cu.url, "d"⟩, some ⟨cu.image_url, "I"⟩))
          (fun _ => ⟨some "t", none, none⟩)) ∧
      ((([[⟨"s", ⟨some "t", none, none⟩, ⟨some "is", some "I"⟩⟩],
          [⟨"a", ⟨some "t", none, none⟩, ⟨some "ia", some "I"⟩⟩]] :
          List (List Article)).map (List.map Article.url)).flatten).Sublist
        ((([(⟨"s", "is"⟩ : URLPair)]) ++ urls).map URLPair.url) :=
  batch_ordering 1 2 1 1 [] [⟨"s", "is"⟩]
    (fun k => if k = 0 then [⟨"a", "ia"⟩] else [])
    (fun cu => (some ⟨cu.url, "d"⟩, some ⟨cu.image_url, "I"⟩))
    (fun _ => ⟨some "t", none, none⟩) _ _ rfl

/-- C10: when the requested count minus the queued extras is `≤ 0`, the
discovery loop body never executes — the loop exits at once with the
state untouched, independent of the page oracle and of the fuel (no
listing-page fetch is issued).  Consequently a `CATAGORY`-mode run with
`n = 0` (a mode without extras) yields no batches at all, and a
`TREND`-mode run with `n ≤ 1` whose seed contributes an extra yields
exactly one batch hydrating only the seed's extra entry. -/
theorem small_n_skips_discovery :
    (∀ (fuelD : Nat) (n : Int) (ex : Nat → List URLPair)
        (k : Nat) (all : List String),
      n ≤ 0 → discoverF fuelD n ex k ([], all) = some ([], all)) ∧
    (∀ (fuelD fuelH : Nat) (uid : String) (m : Nat) (urls0 : List String)
        (seedText : Text) (seedImage : Image) (ex : Nat → List URLPair)
        (fp : URLPair → Option Resource × Option Resource)
        (et : Resource → Text),
      executeF fuelD fuelH uid PageType.CATAGORY 0 m urls0 seedText
          seedImage ex fp et = .ok (some ([], urls0))) ∧
    (∀ (fuelD fuelH : Nat) (uid : String) (n : Int) (m : Nat)
        (urls0 : List String) (title desc : Option String) (md : Metadata)
        (imgUrl : String) (imgBytes : Option String)
        (ex : Nat → List URLPair)
        (fp : URLPair → Option Resource × Option Resource)
        (et : Resource → Text),
      n ≤ 1 → 1 ≤ m → 1 ≤ fuelH → seedURL PageType.TREND uid ∉ urls0 →
      executeF fuelD fuelH uid PageType.TREND n m urls0 ⟨title, desc, some md⟩
          ⟨some imgUrl, imgBytes⟩ ex fp et =
        .ok (some ([hydrateChunk fp et [⟨seedURL PageType.TREND uid, imgUrl⟩]],
          urls0))) := by
  refine ⟨?_, ?_, ?_⟩
  · intro fuelD n ex k all hn
    exact discoverF_skip fuelD n ex k ([], all) (by simpa using hn)
  · intro fuelD fuelH uid m urls0 seedText seedImage ex fp et
    have hd := discoverF_skip fuelD 0 ex 0 (([], urls0) :
      List URLPair × List String) (by simp)
    simp only [executeF]
    norm_num
    simp only [fetchAllF, hd]
    simp [hydrateF, chunksF]
  · intro fuelD fuelH uid n m urls0 title desc md imgUrl imgBytes ex fp et
      hn hm hfH hnotin
    have hd : discoverF fuelD (n - 1) ex 0 ([], urls0) = some ([], urls0) :=
      discoverF_skip fuelD (n - 1) ex 0 ([], urls0) (by simp; omega)
    simp only [executeF]
    simp only [true_or, if_true, true_and]
    rw [if_pos hnotin]
    simp only [fetchAllF, List.length_cons, List.length_nil]
    push_cast
    rw [hd]
    dsimp only
    obtain ⟨f, rfl⟩ : ∃ f, fuelH = f + 1 := ⟨fuelH - 1, by omega⟩
    obtain ⟨m', rfl⟩ : ∃ m', m = m' + 1 := ⟨m - 1, by omega⟩
    simp [hydrateF, chunksF]

/-- Witness for C10 at concrete inputs: with `n = -1` the discovery
state is untouched; a `TREND` run with `n = 1` and a seed extra yields
exactly the one batch hydrating the extra. -/
theorem small_n_skips_discovery_witness :
    discoverF 5 (-1) (fun _ => [⟨"x", "y"⟩]) 3 ([], ["z"]) =
      some ([], ["z"]) ∧
    executeF 3 1 "u" PageType.TREND 1 2 [] ⟨none, none, some ⟨"e", "c"⟩⟩
        ⟨some "i", none⟩ (fun _ => []) (fun _ => (none, none))
        (fun _ => ⟨none, none, none⟩) =
      .ok (some ([hydrateChunk (fun _ => (none, none))
        (fun _ => ⟨none, none, none⟩)
        [⟨seedURL PageType.TREND "u", "i"⟩]], [])) :=
  ⟨small_n_skips_discovery.1 5 (-1) (fun _ => [⟨"x", "y"⟩]) 3 ["z"]
      (by decide),
   small_n_skips_discovery.2.2 3 1 "u" 1 2 [] none none ⟨"e", "c"⟩ "i"
      none (fun _ => []) (fun _ => (none, none))
      (fun _ => ⟨none, none, none⟩) (by decide) (by decide) (by decide)
      (by simp)⟩

/-- C3 (code bug): the seed's "extra" article url is checked against
the caller's dedup set but never recorded into it (`execute` lines
403–410 test `article.url not in urls` without an `urls.add`), and the
comment at `_fetch_all` line 329 ("mix in the extra article urls and
remove duplicate resourced articles") notwithstanding, `urls = extra +
urls` performs no duplicate removal.  Concretely: in a `TREND` run whose
first listing page links back to the seed article, the hydration list
carries the seed url twice and two hydrated records share one canonical
article url; and in a `TREND` run with `n = 1` the accepted seed record's
url is absent from the final dedup set. -/
theorem seed_url_duplicate :
    executeF 1 1 "u" PageType.TREND 2 2 []
      ⟨some "t", none, some ⟨"e", "c"⟩⟩ ⟨some "img", none⟩
      (fun k => if k = 0 then [⟨seedURL PageType.TREND "u", "img2"⟩] else [])
      (fun cu => (some ⟨cu.url, "d"⟩, some ⟨cu.image_url, "I"⟩))
      (fun _ => ⟨some "t", none, some ⟨"e", "c"⟩⟩) =
      .ok (some ([[⟨seedURL PageType.TREND "u",
          ⟨some "t", none, some ⟨"e", "c"⟩⟩, ⟨some "img", some "I"⟩⟩,
        ⟨seedURL PageType.TREND "u",
          ⟨some "t", none, some ⟨"e", "c"⟩⟩, ⟨some "img2", some "I"⟩⟩]],
        [seedURL PageType.TREND "u"])) ∧
    (⟨seedURL PageType.TREND "u",
        ⟨some "t", none, some ⟨"e", "c"⟩⟩, ⟨some "img", some "I"⟩⟩ :
      Article).url =
      (⟨seedURL PageType.TREND "u",
          ⟨some "t", none, some ⟨"e", "c"⟩⟩, ⟨some "img2", some "I"⟩⟩ :
        Article).url ∧
    executeF 1 1 "u" PageType.TREND 1 1 []
      ⟨some "t", none, some ⟨"e", "c"⟩⟩ ⟨some "img", none⟩
      (fun _ => [])
      (fun cu => (some ⟨cu.url, "d"⟩, some ⟨cu.image_url, "I"⟩))
      (fun _ => ⟨some "t", none, some ⟨"e", "c"⟩⟩) =
      .ok (some ([[⟨seedURL PageType.TREND "u",
          ⟨some "t", none, some ⟨"e", "c"⟩⟩, ⟨some "img", some "I"⟩⟩]],
        [])) :=
  ⟨rfl, rfl, rfl⟩

end TrendHunter
